import Mathlib

/-!
Verification of the neonx graph-to-Neo4j translation library
(`neonx/neo.py`): a shallow embedding of the batch request builder
(`generate_data`), the response validator (`check_exception`) and the
graph-reconstruction step of `get_neo_graph`, together with theorems
settling the specified behaviour.

Python dictionaries are modelled as insertion-ordered association lists
with update-in-place semantics; JSON-encodable values as the inductive
`Jsonv`; raised exceptions as the `Except` monad with error type `PyErr`.
-/

/-- A JSON-encodable Python value (node/edge attribute values, parsed
response bodies).  `Jsonv.null` models Python `None`. -/
inductive Jsonv where
  | null : Jsonv
  | bool (b : Bool) : Jsonv
  | num (n : Int) : Jsonv
  | str (s : String) : Jsonv
  | arr (xs : List Jsonv) : Jsonv
  | obj (kvs : List (String × Jsonv)) : Jsonv
deriving Repr

/-- A property mapping (a Python dict of attributes), insertion-ordered. -/
abbrev Props : Type := List (String × Jsonv)

/-- Python dict lookup `d[k]` (as `Option`): first binding of the key.
With `dset` maintaining the dict, keys are unique, so this is dict access. -/
def dget {α β : Type} [DecidableEq α] : List (α × β) → α → Option β
  | [], _ => none
  | (k, v) :: rest, key => if k = key then some v else dget rest key

/-- Python dict assignment `d[k] = v`: update in place, preserving the
key's original insertion position, or append a fresh binding at the end. -/
def dset {α β : Type} [DecidableEq α] : List (α × β) → α → β → List (α × β)
  | [], key, v => [(key, v)]
  | (k, w) :: rest, key, v =>
    if k = key then (key, v) :: rest else (k, w) :: dset rest key v

/-- Python dict `d.update(other)`: assign every binding of `other` into
`d`, in order (`networkx` node/edge attribute update semantics). -/
def props_update (d other : Props) : Props :=
  other.foldl (fun acc kv => dset acc kv.1 kv.2) d

/-- A Python exception raised by the embedded code. -/
inductive PyErr where
  /-- `ValueError(msg)` — the spec's ConfigurationError / MalformedResponseError. -/
  | valueError (msg : String) : PyErr
  /-- `KeyError` from a dict access. -/
  | keyError : PyErr
  /-- `Exception(result_json['errors'])` — the spec's ServerError with details. -/
  | serverError (errors : Jsonv) : PyErr
  /-- `Exception("Unknown server error.")` with the raw response content
  appended to `e.args` — the spec's generic ServerError. -/
  | unknownServerError (msg : String) (raw : String) : PyErr
  /-- `result.json()` failed to parse the body. -/
  | jsonDecodeError : PyErr
deriving Repr

/-- One Neo4j batch operation, as built by the entity formatters.
Each constructor abstracts the request dict the source constructs:
* `node i props` is `{method: POST, to: /node, id: i, body: props}`;
* `label i l` is `{method: POST, to: {i}/labels, body: l}`;
* `rel f t ty props` is `{method: POST, to: {f}/relationships,
  body: {to: {t}, type: ty, data: props}}`. -/
inductive Entity where
  | node (i : Nat) (properties : Props) : Entity
  | label (i : Nat) (l : String) : Entity
  | rel (from_id : Nat) (to_id : Nat) (rel_name : Jsonv) (properties : Props) : Entity
deriving Repr

/-- Source `get_node(node_id, properties)`: formats a CreateNode batch operation. -/
def get_node (node_id : Nat) (properties : Props) : Entity :=
  Entity.node node_id properties

/-- Source `get_relationship(from_id, to_id, rel_name, properties)`: formats a
CreateRelationship batch operation. -/
def get_relationship (from_id to_id : Nat) (rel_name : Jsonv)
    (properties : Props) : Entity :=
  Entity.rel from_id to_id rel_name properties

/-- Source `get_label(i, label)`: formats an AddLabel batch operation. -/
def get_label (i : Nat) (l : String) : Entity :=
  Entity.label i l

/-- Is this entity a CreateNode operation? -/
def Entity.isNode : Entity → Bool
  | .node _ _ => true
  | _ => false

/-- Is this entity an AddLabel operation? -/
def Entity.isLabel : Entity → Bool
  | .label _ _ => true
  | _ => false

/-- Is this entity a CreateRelationship operation? -/
def Entity.isRel : Entity → Bool
  | .rel _ _ _ _ => true
  | _ => false

/-- A NetworkX `Graph` or `DiGraph` with node names of type `ν`:
`directed` records `isinstance(graph, nx.DiGraph)`; `nodes` is
`graph.nodes(data=True)` and `edges` is `graph.edges(data=True)`, both in
the graph's (deterministic, insertion-ordered) iteration order.  An
undirected graph stores each edge once. -/
structure Graph (ν : Type) where
  directed : Bool
  nodes : List (ν × Props)
  edges : List (ν × ν × Props)

/-- A NetworkX graph as actually produced by the library: node names are
unique, and every edge endpoint is a node of the graph. -/
def Graph.WF {ν : Type} (g : Graph ν) : Prop :=
  (g.nodes.map Prod.fst).Nodup ∧
    ∀ e ∈ g.edges, e.1 ∈ g.nodes.map Prod.fst ∧ e.2.1 ∈ g.nodes.map Prod.fst

instance {ν : Type} [DecidableEq ν] (g : Graph ν) : Decidable g.WF := by
  unfold Graph.WF; infer_instance

/-- The first loop of `generate_data`: `for i, (node_name, properties) in
enumerate(graph.nodes(data=True))`, appending `get_node(i, properties)`
to `entities` and recording `nodes[node_name] = i`.  Returns the emitted
entities together with the final `nodes` dict. -/
def add_nodes {ν : Type} [DecidableEq ν] (i : Nat) (nodes : List (ν × Nat)) :
    List (ν × Props) → List Entity × List (ν × Nat)
  | [] => ([], nodes)
  | (node_name, properties) :: rest =>
    let r := add_nodes (i + 1) (dset nodes node_name i) rest
    (get_node i properties :: r.1, r.2)

/-- The relationship-name resolution of `generate_data` (lines 94-104):
with `edge_rel_key` supplied, look the key up in the edge's properties,
falling back to `edge_rel_name`, and raise
`ValueError('Invalid edge label key')` when neither applies; without
`edge_rel_key`, use `edge_rel_name` directly (Python `None` when absent,
modelled as `Jsonv.null`; unreachable under the function's precondition). -/
def resolve_ename (edge_rel_name edge_rel_key : Option String)
    (properties : Props) : Except PyErr Jsonv :=
  match edge_rel_key with
  | some k =>
    match dget properties k with
    | some v => .ok v
    | none =>
      match edge_rel_name with
      | some n => .ok (Jsonv.str n)
      | none => .error (PyErr.valueError "Invalid edge label key")
  | none =>
    match edge_rel_name with
    | some n => .ok (Jsonv.str n)
    | none => .ok Jsonv.null

/-- The edge loop of `generate_data` (lines 93-114): for each edge resolve
the relationship name, look both endpoints up in the `nodes` dict
(`KeyError` if absent — impossible on a real NetworkX graph), emit the
forward CreateRelationship operation and, when the graph is not a
DiGraph, the mirrored one right after it. -/
def process_edges {ν : Type} [DecidableEq ν] (nodes : List (ν × Nat))
    (edge_rel_name edge_rel_key : Option String) (is_digraph : Bool) :
    List (ν × ν × Props) → Except PyErr (List Entity)
  | [] => .ok []
  | (from_node, to_node, properties) :: rest => do
    let ename ← resolve_ename edge_rel_name edge_rel_key properties
    let from_id ← match dget nodes from_node with
      | some i => Except.ok i
      | none => Except.error PyErr.keyError
    let to_id ← match dget nodes to_node with
      | some i => Except.ok i
      | none => Except.error PyErr.keyError
    let edge := get_relationship from_id to_id ename properties
    let rest_entities ← process_edges nodes edge_rel_name edge_rel_key is_digraph rest
    if is_digraph then
      Except.ok (edge :: rest_entities)
    else
      let reverse_edge := get_relationship to_id from_id ename properties
      Except.ok (edge :: reverse_edge :: rest_entities)

/-- Source `generate_data(graph, edge_rel_name, label, encoder, edge_rel_key)`:
converts a NetworkX graph into the ordered list of Neo4j batch
operations.  Raises `ValueError` when neither `edge_rel_name` nor
`edge_rel_key` is given.  Emits one CreateNode per node (temp-ids by
enumeration), then — when `label` is truthy, i.e. a non-empty string
(`if label:`) — one AddLabel per entry of the `nodes` dict, then the
CreateRelationship operations.  The source finally serialises the list
with the caller-supplied JSON encoder (an external collaborator); we
return the operation list itself. -/
def generate_data {ν : Type} [DecidableEq ν] (graph : Graph ν)
    (edge_rel_name : Option String := none) (label : Option String := none)
    (edge_rel_key : Option String := none) : Except PyErr (List Entity) := do
  if edge_rel_name = none ∧ edge_rel_key = none then
    throw (PyErr.valueError "Must provide either `edge_rel_name` or `edge_rel_key`")
  let r := add_nodes 0 [] graph.nodes
  let node_entities := r.1
  let nodes := r.2
  let label_entities : List Entity :=
    match label with
    | some l => if l = "" then [] else nodes.map (fun p => get_label p.2 l)
    | none => []
  let rel_entities ← process_edges nodes edge_rel_name edge_rel_key
    graph.directed graph.edges
  return node_entities ++ label_entities ++ rel_entities

/-- The content type the library compares against:
`JSON_CONTENT_TYPE = 'application/json; charset=utf-8'`. -/
def JSON_CONTENT_TYPE : String := "application/json; charset=utf-8"

/-- An HTTP response as `check_exception` observes it: the status code,
the `content-type` header (`none` when the header is absent), the body
parsed as JSON (`none` when `result.json()` would fail), and the raw
body `result.content`. -/
structure Response where
  status_code : Nat
  content_type : Option String
  json : Option Jsonv
  content : String

/-- Python `s.lower()`: per-character lowercasing (ASCII case folding,
character by character — the same fold `String.toLower` performs). -/
def py_lower (s : String) : String := ⟨s.data.map Char.toLower⟩

/-- Field access `j[k]` on a parsed JSON value: a lookup when `j` is an
object, failing otherwise. -/
def jget (j : Jsonv) (key : String) : Option Jsonv :=
  match j with
  | .obj kvs => dget kvs key
  | _ => none

/-- Source `check_exception(result)`: return on status 200; otherwise, when the
lowercased `content-type` header (defaulting to `''`) equals
`JSON_CONTENT_TYPE`, raise `Exception(result.json()['errors'])`; when it
does not, raise `Exception("Unknown server error.")` with
`result.content` appended to the exception's args. -/
def check_exception (result : Response) : Except PyErr Unit :=
  if result.status_code = 200 then
    .ok ()
  else if py_lower (result.content_type.getD "") = JSON_CONTENT_TYPE then
    match result.json with
    | none => .error PyErr.jsonDecodeError
    | some result_json =>
      match jget result_json "errors" with
      | some errs => .error (PyErr.serverError errs)
      | none => .error PyErr.keyError
  else
    .error (PyErr.unknownServerError "Unknown server error." result.content)

/-- A node record of the batch read response: its `self` URL and its
`data` property mapping. -/
structure NodeRec where
  self : String
  data : Props

/-- The relationship object inside an edge record: its `type` string (as
a JSON value) and its `data` property mapping. -/
structure RelRecord where
  type : Jsonv
  data : Props

/-- An edge record of the Cypher query response: the triple
`[from_node_id, relationship, to_node_id]`. -/
structure EdgeRec where
  from_node_id : Int
  relationship : RelRecord
  to_node_id : Int

/-- A NetworkX `DiGraph` over integer node ids, as built by
`get_neo_graph`: insertion-ordered node and edge attribute dicts. -/
structure DiGraph where
  nodes : List (Int × Props)
  edges : List ((Int × Int) × Props)

/-- NetworkX `graph.add_node(node_id, **data)`: create the node with the given
attributes, or update an existing node's attribute dict with them. -/
def DiGraph.add_node (g : DiGraph) (node_id : Int) (data : Props) : DiGraph :=
  match dget g.nodes node_id with
  | some old => { g with nodes := dset g.nodes node_id (props_update old data) }
  | none => { g with nodes := g.nodes ++ [(node_id, data)] }

/-- NetworkX `graph.add_edge(u, v, **properties)`: add missing endpoints as fresh
attribute-less nodes, then create the edge with the given attributes, or
update an existing edge's attribute dict with them. -/
def DiGraph.add_edge (g : DiGraph) (u v : Int) (properties : Props) : DiGraph :=
  let g1 := if (dget g.nodes u).isSome then g else
    { g with nodes := g.nodes ++ [(u, [])] }
  let g2 := if (dget g1.nodes v).isSome then g1 else
    { g1 with nodes := g1.nodes ++ [(v, [])] }
  match dget g2.edges (u, v) with
  | some old => { g2 with edges := dset g2.edges (u, v) (props_update old properties) }
  | none => { g2 with edges := g2.edges ++ [((u, v), properties)] }

/-- Python `s.rpartition('/')[-1]`: the substring after the last `/`, or the
whole string when it contains no `/` (accumulate characters, resetting at
each `/`). -/
def rpartition_last (s : String) : String :=
  ⟨s.data.foldl (fun acc c => if c = '/' then [] else acc ++ [c]) []⟩

/-- Python `int(s)` on a string: strip surrounding whitespace, accept an
optional sign followed by at least one decimal digit, `none` otherwise
(where the source raises `ValueError`). -/
def python_int (s : String) : Option Int :=
  let digits : List Char → Option Nat := fun cs =>
    if cs = [] ∨ ¬ cs.all Char.isDigit then none
    else some (cs.foldl (fun acc c => 10 * acc + (c.toNat - 48)) 0)
  let stripped :=
    ((s.data.dropWhile Char.isWhitespace).reverse.dropWhile Char.isWhitespace).reverse
  match stripped with
  | '-' :: rest => (digits rest).map (fun n => -(n : Int))
  | '+' :: rest => (digits rest).map (fun n => (n : Int))
  | cs => (digits cs).map (fun n => (n : Int))

/-- The node loop of `get_neo_graph` (lines 261-263): for each node
record parse the trailing path segment of its `self` URL with `int`
(raising `ValueError` on failure) and `add_node` it with its `data`. -/
def add_node_records : DiGraph → List NodeRec → Except PyErr DiGraph
  | g, [] => .ok g
  | g, n :: rest =>
    match python_int (rpartition_last n.self) with
    | some node_id => add_node_records (g.add_node node_id n.data) rest
    | none => .error (PyErr.valueError
        ("invalid literal for int() with base 10: " ++ rpartition_last n.self))

/-- The edge loop of `get_neo_graph` (lines 265-270): for each edge
record take the relationship's `data` dict, set its `neo_rel_name` key to
the relationship's `type`, and `add_edge` from `from_node_id` to
`to_node_id` with those properties. -/
def add_edge_records : DiGraph → List EdgeRec → DiGraph
  | g, [] => g
  | g, e :: rest =>
    let properties := dset e.relationship.data "neo_rel_name" e.relationship.type
    add_edge_records (g.add_edge e.from_node_id e.to_node_id properties) rest

/-- The graph-reconstruction step of `get_neo_graph` (lines 258-272):
build a fresh `DiGraph`, add a node per node record, then an edge per
edge record. -/
def build_graph (node_data : List NodeRec) (edge_data : List EdgeRec) :
    Except PyErr DiGraph := do
  let g ← add_node_records ⟨[], []⟩ node_data
  return add_edge_records g edge_data

/-! ### Derived characterizations and helper lemmas -/

/-- The `nodes` dict built by the first loop of `generate_data`. -/
def node_dict {ν : Type} [DecidableEq ν] (g : Graph ν) : List (ν × Nat) :=
  (add_nodes 0 [] g.nodes).2

/-- The temp-id assigned to node `n` by `generate_data` (0 by convention
when `n` is not a node of the graph). -/
def node_index {ν : Type} [DecidableEq ν] (g : Graph ν) (n : ν) : Nat :=
  (dget (node_dict g) n).getD 0

/-- The relationship type `generate_data` resolves for an edge with the
given properties (`Jsonv.null` by convention on the error case). -/
def rel_typeD (edge_rel_name edge_rel_key : Option String) (p : Props) : Jsonv :=
  match resolve_ename edge_rel_name edge_rel_key p with
  | .ok v => v
  | .error _ => Jsonv.null

/-- The CreateRelationship operations `generate_data` emits for a single
edge: the forward operation, followed by the mirrored one when the graph
is undirected. -/
def emit_edge {ν : Type} [DecidableEq ν] (nodes : List (ν × Nat))
    (edge_rel_name edge_rel_key : Option String) (is_digraph : Bool)
    (e : ν × ν × Props) : List Entity :=
  let ty := rel_typeD edge_rel_name edge_rel_key e.2.2
  let from_id := (dget nodes e.1).getD 0
  let to_id := (dget nodes e.2.1).getD 0
  if is_digraph then [Entity.rel from_id to_id ty e.2.2]
  else [Entity.rel from_id to_id ty e.2.2, Entity.rel to_id from_id ty e.2.2]

/-- The AddLabel operations `generate_data` emits for a graph with `n`
nodes: one per temp-id when the label is a non-empty string, none when
the label is absent or empty (Python truthiness of `if label:`). -/
def label_block (n : Nat) (lbl : Option String) : List Entity :=
  match lbl with
  | some l => if l = "" then [] else (List.range n).map fun i => Entity.label i l
  | none => []

lemma label_block_all_isLabel (n : Nat) (lbl : Option String) :
    ∀ b ∈ label_block n lbl, b.isLabel = true := by
  intro b hb
  cases lbl with
  | none => simp [label_block] at hb
  | some l =>
    by_cases hl : l = ""
    · simp [label_block, hl] at hb
    · rw [label_block, if_neg hl] at hb
      obtain ⟨i, _, rfl⟩ := List.mem_map.1 hb
      rfl

lemma dget_isSome {α β : Type} [DecidableEq α] (d : List (α × β)) (k : α) :
    (dget d k).isSome = true ↔ k ∈ d.map Prod.fst := by
  induction d with
  | nil => simp [dget]
  | cons hd tl ih =>
    obtain ⟨a, b⟩ := hd
    by_cases h : a = k
    · subst h; simp [dget]
    · simp [dget, h, ih, Ne.symm h]

lemma dset_eq_append {α β : Type} [DecidableEq α] (d : List (α × β)) (k : α)
    (v : β) (h : k ∉ d.map Prod.fst) : dset d k v = d ++ [(k, v)] := by
  induction d with
  | nil => rfl
  | cons hd tl ih =>
    obtain ⟨a, b⟩ := hd
    simp only [List.map_cons, List.mem_cons, not_or] at h
    have ha : ¬a = k := fun hh => h.1 hh.symm
    simp [dset, ha, ih h.2]

lemma add_nodes_eq {ν : Type} [DecidableEq ν] :
    ∀ (l : List (ν × Props)) (i : Nat) (d : List (ν × Nat)),
      (l.map Prod.fst).Nodup →
      (∀ n ∈ l.map Prod.fst, n ∉ d.map Prod.fst) →
      add_nodes i d l =
        ((l.enumFrom i).map fun p => Entity.node p.1 p.2.2,
         d ++ (l.enumFrom i).map fun p => (p.2.1, p.1))
  | [], i, d, _, _ => by simp [add_nodes, List.enumFrom]
  | (name, props) :: rest, i, d, hnd, hdisj => by
    simp only [List.map_cons, List.nodup_cons] at hnd
    have hname : name ∉ d.map Prod.fst := hdisj name (by simp)
    have hdisj' : ∀ n ∈ rest.map Prod.fst, n ∉ (d ++ [(name, i)]).map Prod.fst := by
      intro n hn
      simp only [List.map_append, List.mem_append, not_or]
      exact ⟨hdisj n (by simp [hn]), by
        simp only [List.map_cons, List.map_nil, List.mem_singleton]
        exact fun hh => hnd.1 (hh ▸ hn)⟩
    have ih := add_nodes_eq rest (i + 1) (d ++ [(name, i)]) hnd.2 hdisj'
    simp only [add_nodes, dset_eq_append d name i hname, ih, List.enumFrom,
      List.map_cons, get_node, List.append_assoc, List.cons_append, List.nil_append]

lemma node_dict_eq {ν : Type} [DecidableEq ν] (g : Graph ν)
    (hnd : (g.nodes.map Prod.fst).Nodup) :
    node_dict g = g.nodes.enum.map fun p => (p.2.1, p.1) := by
  unfold node_dict
  rw [add_nodes_eq g.nodes 0 [] hnd (by simp)]
  rfl

lemma node_dict_keys {ν : Type} [DecidableEq ν] (g : Graph ν)
    (hnd : (g.nodes.map Prod.fst).Nodup) :
    (node_dict g).map Prod.fst = g.nodes.map Prod.fst := by
  rw [node_dict_eq g hnd, List.map_map]
  have h1 : (Prod.fst ∘ fun p : Nat × ν × Props => (p.2.1, p.1)) =
      (Prod.fst ∘ Prod.snd) := rfl
  rw [h1, ← List.map_map, List.enum_map_snd]

lemma dget_node_dict_isSome {ν : Type} [DecidableEq ν] (g : Graph ν)
    (hnd : (g.nodes.map Prod.fst).Nodup) (n : ν)
    (hn : n ∈ g.nodes.map Prod.fst) : (dget (node_dict g) n).isSome = true := by
  rw [dget_isSome, node_dict_keys g hnd]
  exact hn

lemma except_isOk_iff {ε α : Type} (x : Except ε α) :
    x.isOk = true ↔ ∃ v, x = .ok v := by
  cases x <;> simp [Except.isOk, Except.toBool]

lemma process_edges_ok {ν : Type} [DecidableEq ν] (nodes : List (ν × Nat))
    (ern erk : Option String) (is_digraph : Bool) :
    ∀ l : List (ν × ν × Props),
      (∀ e ∈ l, (dget nodes e.1).isSome = true ∧ (dget nodes e.2.1).isSome = true) →
      (∀ e ∈ l, (resolve_ename ern erk e.2.2).isOk = true) →
      process_edges nodes ern erk is_digraph l =
        .ok (l.bind (emit_edge nodes ern erk is_digraph))
  | [], _, _ => by simp [process_edges]
  | (f, t, p) :: rest, hep, hres => by
    obtain ⟨v, hv⟩ := (except_isOk_iff _).1 (hres (f, t, p) (by simp))
    obtain ⟨hf, ht⟩ := hep (f, t, p) (by simp)
    obtain ⟨fi, hfi⟩ := Option.isSome_iff_exists.1 hf
    obtain ⟨ti, hti⟩ := Option.isSome_iff_exists.1 ht
    have ih := process_edges_ok nodes ern erk is_digraph rest
      (fun e he => hep e (by simp [he])) (fun e he => hres e (by simp [he]))
    simp only [process_edges, hv, hfi, hti, ih]
    have hty : rel_typeD ern erk p = v := by simp [rel_typeD, hv]
    cases is_digraph <;>
      simp [emit_edge, Bind.bind, Except.bind, get_relationship, hty, hfi, hti]

lemma process_edges_missing_key {ν : Type} [DecidableEq ν]
    (nodes : List (ν × Nat)) (k : String) (is_digraph : Bool) :
    ∀ l : List (ν × ν × Props),
      (∀ e ∈ l, (dget nodes e.1).isSome = true ∧ (dget nodes e.2.1).isSome = true) →
      (∃ e ∈ l, dget e.2.2 k = none) →
      process_edges nodes none (some k) is_digraph l =
        .error (PyErr.valueError "Invalid edge label key")
  | [], _, hex => by simp at hex
  | (f, t, p) :: rest, hep, hex => by
    by_cases hp : dget p k = none
    · have : resolve_ename none (some k) p =
          .error (PyErr.valueError "Invalid edge label key") := by
        simp [resolve_ename, hp]
      simp [process_edges, this, Bind.bind, Except.bind]
    · obtain ⟨v, hv⟩ := Option.ne_none_iff_exists'.1 hp
      have hres : resolve_ename none (some k) p = .ok v := by
        simp [resolve_ename, hv]
      obtain ⟨hf, ht⟩ := hep (f, t, p) (by simp)
      obtain ⟨fi, hfi⟩ := Option.isSome_iff_exists.1 hf
      obtain ⟨ti, hti⟩ := Option.isSome_iff_exists.1 ht
      obtain ⟨e, he, hek⟩ := hex
      have herest : e ∈ rest := by
        rcases List.mem_cons.1 he with rfl | h
        · exact absurd hek hp
        · exact h
      have ih := process_edges_missing_key nodes k is_digraph rest
        (fun e' he' => hep e' (by simp [he'])) ⟨e, herest, hek⟩
      simp [process_edges, hres, hfi, hti, ih, Bind.bind, Except.bind]

lemma generate_data_unfold {ν : Type} [DecidableEq ν] (g : Graph ν)
    (ern lbl erk : Option String) (hargs : ¬(ern = none ∧ erk = none))
    (res : Except PyErr (List Entity))
    (hpe : process_edges (node_dict g) ern erk g.directed g.edges = res) :
    generate_data g ern lbl erk = res.map (fun rel_entities =>
      (add_nodes 0 [] g.nodes).1 ++
      (match lbl with
       | some l => if l = "" then []
         else (node_dict g).map fun p => get_label p.2 l
       | none => []) ++ rel_entities) := by
  unfold node_dict at hpe
  unfold generate_data
  rw [if_neg hargs]
  cases res with
  | ok rel_entities =>
    simp only [Bind.bind, Except.bind, pure, Except.pure, hpe, Except.map, node_dict]
    rfl
  | error e =>
    simp only [Bind.bind, Except.bind, pure, Except.pure, hpe, Except.map, node_dict]

lemma add_nodes_entities {ν : Type} [DecidableEq ν] (g : Graph ν)
    (hnd : (g.nodes.map Prod.fst).Nodup) :
    (add_nodes 0 [] g.nodes).1 = g.nodes.enum.map fun p => Entity.node p.1 p.2.2 := by
  rw [add_nodes_eq g.nodes 0 [] hnd (by simp)]
  rfl

lemma label_entities_eq {ν : Type} [DecidableEq ν] (g : Graph ν)
    (hnd : (g.nodes.map Prod.fst).Nodup) (s : String) :
    ((node_dict g).map fun p => get_label p.2 s) =
      (List.range g.nodes.length).map fun i => Entity.label i s := by
  rw [node_dict_eq g hnd, List.map_map]
  have h1 : ((fun p : ν × Nat => get_label p.2 s) ∘ fun p : Nat × ν × Props => (p.2.1, p.1)) =
      ((fun i => Entity.label i s) ∘ Prod.fst) := rfl
  rw [h1, ← List.map_map, List.enum_map_fst]

/-- Full characterization of a successful `generate_data` call: the
CreateNode operations in node-enumeration order, then the AddLabel
operations (for a truthy label), then the per-edge CreateRelationship
operations. -/
lemma generate_data_eq {ν : Type} [DecidableEq ν] (g : Graph ν)
    (ern lbl erk : Option String) (hwf : g.WF)
    (hargs : ¬(ern = none ∧ erk = none))
    (hres : ∀ e ∈ g.edges, (resolve_ename ern erk e.2.2).isOk = true) :
    generate_data g ern lbl erk = .ok (
      (g.nodes.enum.map fun p => Entity.node p.1 p.2.2) ++
      label_block g.nodes.length lbl ++
      g.edges.bind (emit_edge (node_dict g) ern erk g.directed)) := by
  obtain ⟨hnd, hend⟩ := hwf
  have hpe := process_edges_ok (node_dict g) ern erk g.directed g.edges
    (fun e he => ⟨dget_node_dict_isSome g hnd e.1 (hend e he).1,
                  dget_node_dict_isSome g hnd e.2.1 (hend e he).2⟩)
    hres
  rw [generate_data_unfold g ern lbl erk hargs _ hpe]
  simp only [Except.map, add_nodes_entities g hnd]
  congr 2
  cases lbl with
  | none => rfl
  | some l =>
    by_cases hl : l = ""
    · simp [label_block, hl]
    · simp only [label_block, if_neg hl, label_entities_eq g hnd l]

lemma emit_edge_all_isRel {ν : Type} [DecidableEq ν] (nodes : List (ν × Nat))
    (ern erk : Option String) (dir : Bool) (e : ν × ν × Props) :
    ∀ x ∈ emit_edge nodes ern erk dir e, x.isRel = true := by
  cases dir <;> simp [emit_edge, Entity.isRel]

lemma length_emit_edge {ν : Type} [DecidableEq ν] (nodes : List (ν × Nat))
    (ern erk : Option String) (dir : Bool) (e : ν × ν × Props) :
    (emit_edge nodes ern erk dir e).length = if dir then 1 else 2 := by
  cases dir <;> simp [emit_edge]

lemma length_bind_emit {ν : Type} [DecidableEq ν] (nodes : List (ν × Nat))
    (ern erk : Option String) (dir : Bool) (l : List (ν × ν × Props)) :
    (l.bind (emit_edge nodes ern erk dir)).length =
      if dir then l.length else 2 * l.length := by
  induction l with
  | nil => cases dir <;> simp
  | cons hd tl ih =>
    simp only [List.cons_bind, List.length_append, ih, length_emit_edge]
    cases dir <;> simp <;> omega

/-- Splitting the output of `generate_data` by operation kind: the three
blocks of the output are recovered by `filter`. -/
lemma filter_parts (A B C : List Entity)
    (hA : ∀ a ∈ A, a.isNode = true) (hB : ∀ b ∈ B, b.isLabel = true)
    (hC : ∀ c ∈ C, c.isRel = true) :
    (A ++ B ++ C).filter Entity.isNode = A ∧
    (A ++ B ++ C).filter Entity.isLabel = B ∧
    (A ++ B ++ C).filter Entity.isRel = C := by
  have kindN : ∀ x : Entity, x.isNode = true → x.isLabel = false ∧ x.isRel = false := by
    intro x h; cases x <;> simp_all [Entity.isNode, Entity.isLabel, Entity.isRel]
  have kindL : ∀ x : Entity, x.isLabel = true → x.isNode = false ∧ x.isRel = false := by
    intro x h; cases x <;> simp_all [Entity.isNode, Entity.isLabel, Entity.isRel]
  have kindR : ∀ x : Entity, x.isRel = true → x.isNode = false ∧ x.isLabel = false := by
    intro x h; cases x <;> simp_all [Entity.isNode, Entity.isLabel, Entity.isRel]
  refine ⟨?_, ?_, ?_⟩ <;> simp only [List.filter_append]
  · rw [List.filter_eq_self.2 hA,
      List.filter_eq_nil.2 (fun b hb => by simp [(kindL b (hB b hb)).1]),
      List.filter_eq_nil.2 (fun c hc => by simp [(kindR c (hC c hc)).1])]
    simp
  · rw [List.filter_eq_self.2 hB,
      List.filter_eq_nil.2 (fun a ha => by simp [(kindN a (hA a ha)).1]),
      List.filter_eq_nil.2 (fun c hc => by simp [(kindR c (hC c hc)).2])]
    simp
  · rw [List.filter_eq_self.2 hC,
      List.filter_eq_nil.2 (fun a ha => by simp [(kindN a (hA a ha)).2]),
      List.filter_eq_nil.2 (fun b hb => by simp [(kindL b (hB b hb)).2])]
    simp

lemma generate_data_missing_key {ν : Type} [DecidableEq ν] (g : Graph ν)
    (lbl : Option String) (k : String) (hwf : g.WF)
    (hk : ∃ e ∈ g.edges, dget e.2.2 k = none) :
    generate_data g none lbl (some k) =
      .error (PyErr.valueError "Invalid edge label key") := by
  obtain ⟨hnd, hend⟩ := hwf
  have hpe := process_edges_missing_key (node_dict g) k g.directed g.edges
    (fun e he => ⟨dget_node_dict_isSome g hnd e.1 (hend e he).1,
                  dget_node_dict_isSome g hnd e.2.1 (hend e he).2⟩)
    hk
  rw [generate_data_unfold g none lbl (some k) (by simp) _ hpe]
  rfl

lemma list_bind_congr {α β : Type} (l : List α) (f f' : α → List β)
    (h : ∀ a ∈ l, f a = f' a) : l.bind f = l.bind f' := by
  induction l with
  | nil => rfl
  | cons hd tl ih =>
    simp only [List.cons_bind, h hd (by simp), ih fun a ha => h a (by simp [ha])]

/-- A successful `generate_data` call, split by operation kind: the output
is its CreateNode block, then its AddLabel block, then its
CreateRelationship block, each recovered by `filter`. -/
lemma generate_data_parts {ν : Type} [DecidableEq ν] (g : Graph ν)
    (ern lbl erk : Option String) (hwf : g.WF)
    (hargs : ¬(ern = none ∧ erk = none))
    (hres : ∀ e ∈ g.edges, (resolve_ename ern erk e.2.2).isOk = true) :
    ∃ es, generate_data g ern lbl erk = .ok es ∧
      es.filter Entity.isNode = (g.nodes.enum.map fun p => Entity.node p.1 p.2.2) ∧
      es.filter Entity.isLabel = label_block g.nodes.length lbl ∧
      es.filter Entity.isRel = g.edges.bind (emit_edge (node_dict g) ern erk g.directed) ∧
      es = es.filter Entity.isNode ++ es.filter Entity.isLabel ++ es.filter Entity.isRel := by
  have hparts := filter_parts
    (g.nodes.enum.map fun p => Entity.node p.1 p.2.2)
    (label_block g.nodes.length lbl)
    (g.edges.bind (emit_edge (node_dict g) ern erk g.directed))
    (by
      intro a ha
      obtain ⟨p, _, rfl⟩ := List.mem_map.1 ha
      rfl)
    (label_block_all_isLabel g.nodes.length lbl)
    (by
      intro c hc
      obtain ⟨e, _, hce⟩ := List.mem_bind.1 hc
      exact emit_edge_all_isRel _ ern erk g.directed e c hce)
  have heq := generate_data_eq g ern lbl erk hwf hargs hres
  refine ⟨_, heq, hparts.1, hparts.2.1, hparts.2.2, ?_⟩
  rw [hparts.1, hparts.2.1, hparts.2.2]

/-! ### Claim theorems -/

/-- C4: for every graph — including the empty graph — calling
`generate_data` with neither `edge_rel_name` nor `edge_rel_key` supplied
fails with the ConfigurationError (`ValueError`) "Must provide either
`edge_rel_name` or `edge_rel_key`", emitting no operation. -/
theorem c4_no_name_no_key_fails {ν : Type} [DecidableEq ν] (g : Graph ν)
    (lbl : Option String) :
    generate_data g none lbl none =
      .error (PyErr.valueError "Must provide either `edge_rel_name` or `edge_rel_key`") := by
  unfold generate_data
  rw [if_pos ⟨rfl, rfl⟩]
  rfl

/-- C1: with `edge_rel_key = some k` supplied, the CreateRelationship
operation emitted for each edge uses the edge's value at key `k` as its
type when the key is present, and `edge_rel_name` when it is absent;
when some edge lacks the key and `edge_rel_name` is not supplied, the
call fails with the ConfigurationError (`ValueError`)
"Invalid edge label key". -/
theorem c1_edge_rel_key_resolution {ν : Type} [DecidableEq ν] (g : Graph ν)
    (k : String) (ern lbl : Option String) (hwf : g.WF) :
    ((∀ e ∈ g.edges, (dget e.2.2 k).isSome = true ∨ ern.isSome = true) →
      ∃ es, generate_data g ern lbl (some k) = .ok es ∧
        es.filter Entity.isRel = g.edges.bind (fun e =>
          let ty : Jsonv := match dget e.2.2 k with
            | some v => v
            | none => Jsonv.str (ern.getD "")
          let fwd := Entity.rel (node_index g e.1) (node_index g e.2.1) ty e.2.2
          if g.directed then [fwd]
          else [fwd, Entity.rel (node_index g e.2.1) (node_index g e.1) ty e.2.2])) ∧
    ((∃ e ∈ g.edges, dget e.2.2 k = none) → ern = none →
      generate_data g ern lbl (some k) =
        .error (PyErr.valueError "Invalid edge label key")) := by
  constructor
  · intro hkeys
    have hres : ∀ e ∈ g.edges, (resolve_ename ern (some k) e.2.2).isOk = true := by
      intro e he
      rcases hkeys e he with h | h
      · obtain ⟨v, hv⟩ := Option.isSome_iff_exists.1 h
        simp [resolve_ename, hv, Except.isOk, Except.toBool]
      · obtain ⟨n, hn⟩ := Option.isSome_iff_exists.1 h
        cases hd : dget e.2.2 k <;>
          simp [resolve_ename, hd, hn, Except.isOk, Except.toBool]
    obtain ⟨es, hok, _, _, hrel, _⟩ :=
      generate_data_parts g ern lbl (some k) hwf (by simp) hres
    refine ⟨es, hok, ?_⟩
    rw [hrel]
    refine list_bind_congr _ _ _ (fun e he => ?_)
    rcases hkeys e he with h | h
    · obtain ⟨v, hv⟩ := Option.isSome_iff_exists.1 h
      simp [emit_edge, rel_typeD, resolve_ename, hv, node_index]
    · obtain ⟨n, hn⟩ := Option.isSome_iff_exists.1 h
      cases hd : dget e.2.2 k <;>
        simp [emit_edge, rel_typeD, resolve_ename, hd, hn, node_index]
  · intro hmiss hern
    subst hern
    exact generate_data_missing_key g lbl k hwf hmiss

/-- C1 witness: a two-node undirected graph whose single edge carries the
key `w`; and a digraph whose edge lacks the key with no fallback name. -/
theorem c1_witness :
    (∃ es, generate_data
        (⟨false, [(1, []), (2, [])], [(1, 2, [("w", Jsonv.str "KNOWS")])]⟩ : Graph Nat)
        (some "R") none (some "w") = .ok es ∧
      es.filter Entity.isRel =
        [Entity.rel 0 1 (Jsonv.str "KNOWS") [("w", Jsonv.str "KNOWS")],
         Entity.rel 1 0 (Jsonv.str "KNOWS") [("w", Jsonv.str "KNOWS")]]) ∧
    generate_data (⟨true, [(1, []), (2, [])], [(1, 2, [])]⟩ : Graph Nat)
        none none (some "w") =
      .error (PyErr.valueError "Invalid edge label key") := by
  constructor
  · obtain ⟨es, hok, hrel⟩ :=
      (c1_edge_rel_key_resolution
        (⟨false, [(1, []), (2, [])], [(1, 2, [("w", Jsonv.str "KNOWS")])]⟩ : Graph Nat)
        "w" (some "R") none (by decide)).1 (by
          intro e he
          simp only [List.mem_singleton] at he
          subst he
          exact Or.inl rfl)
    exact ⟨es, hok, hrel⟩
  · exact (c1_edge_rel_key_resolution
      (⟨true, [(1, []), (2, [])], [(1, 2, [])]⟩ : Graph Nat)
      "w" none none (by decide)).2 ⟨(1, 2, []), by simp, rfl⟩ rfl

lemma isRel_false_of_isNode (x : Entity) (h : x.isNode = true) :
    x.isRel = false := by
  cases x <;> simp_all [Entity.isNode, Entity.isRel]

lemma isRel_false_of_isLabel (x : Entity) (h : x.isLabel = true) :
    x.isRel = false := by
  cases x <;> simp_all [Entity.isLabel, Entity.isRel]

/-- C2: a successful `generate_data` call emits exactly `|E|`
CreateRelationship operations on a directed graph and `2·|E|` on an
undirected one; the relationship block is the concatenation, over the
edges in order, of the forward operation followed — undirected case — by
the mirrored operation with the same resolved type and properties. -/
theorem c2_relationship_counts {ν : Type} [DecidableEq ν] (g : Graph ν)
    (ern lbl erk : Option String) (hwf : g.WF)
    (hargs : ¬(ern = none ∧ erk = none))
    (hres : ∀ e ∈ g.edges, (resolve_ename ern erk e.2.2).isOk = true) :
    ∃ es pre, generate_data g ern lbl erk = .ok es ∧
      es.countP Entity.isRel =
        (if g.directed then g.edges.length else 2 * g.edges.length) ∧
      pre.countP Entity.isRel = 0 ∧
      es = pre ++ g.edges.bind (fun e =>
        let ty := rel_typeD ern erk e.2.2
        let fwd := Entity.rel (node_index g e.1) (node_index g e.2.1) ty e.2.2
        if g.directed then [fwd]
        else [fwd, Entity.rel (node_index g e.2.1) (node_index g e.1) ty e.2.2]) := by
  obtain ⟨es, hok, hN, hL, hR, hsplit⟩ := generate_data_parts g ern lbl erk hwf hargs hres
  refine ⟨es, es.filter Entity.isNode ++ es.filter Entity.isLabel, hok, ?_, ?_, ?_⟩
  · rw [List.countP_eq_length_filter, hR, length_bind_emit]
  · rw [List.countP_append]
    rw [List.countP_eq_zero.2 (fun a ha => by
      simp [isRel_false_of_isNode a (List.of_mem_filter ha)]),
      List.countP_eq_zero.2 (fun a ha => by
      simp [isRel_false_of_isLabel a (List.of_mem_filter ha)])]
  · rw [hR] at hsplit
    exact hsplit

/-- C2 witness: a two-node undirected graph with one edge yields two
mirrored CreateRelationship operations. -/
theorem c2_witness :
    ∃ es pre, generate_data (⟨false, [(1, []), (2, [])], [(1, 2, [])]⟩ : Graph Nat)
        (some "L") none none = .ok es ∧
      es.countP Entity.isRel = 2 ∧
      pre.countP Entity.isRel = 0 ∧
      es = pre ++ [Entity.rel 0 1 (Jsonv.str "L") [], Entity.rel 1 0 (Jsonv.str "L") []] := by
  obtain ⟨es, pre, h1, h2, h3, h4⟩ := c2_relationship_counts
    (⟨false, [(1, []), (2, [])], [(1, 2, [])]⟩ : Graph Nat)
    (some "L") none none (by decide) (by simp)
    (by intro e he; simp only [List.mem_singleton] at he; subst he; rfl)
  exact ⟨es, pre, h1, h2, h3, h4⟩

/-- C3 counterexample: the claim asserts `|V|` AddLabel operations
whenever a label is given, but the source's `if label:` is Python
truthiness — the supplied empty-string label yields no AddLabel
operation at all on a one-node graph. -/
theorem c3_counterexample :
    generate_data (⟨true, [(1, [])], []⟩ : Graph Nat)
        (some "LINKS_TO") (some "") none = .ok [Entity.node 0 []] ∧
    ([Entity.node 0 []] : List Entity).countP Entity.isLabel = 0 ∧
    (⟨true, [(1, [])], []⟩ : Graph Nat).nodes.length = 1 :=
  ⟨rfl, rfl, rfl⟩

/-- C3 (amended: a given label produces the AddLabel operations only when
it is non-empty): a successful `generate_data` call emits exactly `|V|`
CreateNode operations carrying temp-ids 0..N-1 in node iteration order,
exactly `|V|` AddLabel operations when a non-empty label is given, and
the output is ordered CreateNode block, then AddLabel block, then
CreateRelationship block. -/
theorem c3_node_ops_and_ordering {ν : Type} [DecidableEq ν] (g : Graph ν)
    (ern lbl erk : Option String) (hwf : g.WF)
    (hargs : ¬(ern = none ∧ erk = none))
    (hres : ∀ e ∈ g.edges, (resolve_ename ern erk e.2.2).isOk = true) :
    ∃ es, generate_data g ern lbl erk = .ok es ∧
      es.filter Entity.isNode = (g.nodes.enum.map fun p => Entity.node p.1 p.2.2) ∧
      es.countP Entity.isNode = g.nodes.length ∧
      (∀ l : String, lbl = some l → l ≠ "" →
        es.countP Entity.isLabel = g.nodes.length) ∧
      es = es.filter Entity.isNode ++ es.filter Entity.isLabel ++
        es.filter Entity.isRel := by
  obtain ⟨es, hok, hN, hL, _, hsplit⟩ := generate_data_parts g ern lbl erk hwf hargs hres
  refine ⟨es, hok, hN, ?_, ?_, hsplit⟩
  · rw [List.countP_eq_length_filter, hN, List.length_map, List.enum_length]
  · intro l hl hne
    subst hl
    rw [List.countP_eq_length_filter, hL]
    simp [label_block, hne]

/-- C3 witness: a one-node digraph with the non-empty label `Node`. -/
theorem c3_witness :
    ∃ es, generate_data (⟨true, [(1, [])], []⟩ : Graph Nat)
        (some "R") (some "Node") none = .ok es ∧
      es.filter Entity.isNode = [Entity.node 0 []] ∧
      es.countP Entity.isNode = 1 ∧
      es.countP Entity.isLabel = 1 ∧
      es = es.filter Entity.isNode ++ es.filter Entity.isLabel ++
        es.filter Entity.isRel := by
  obtain ⟨es, hok, hN, hc, hlbl, hsplit⟩ := c3_node_ops_and_ordering
    (⟨true, [(1, [])], []⟩ : Graph Nat) (some "R") (some "Node") none
    (by decide) (by simp) (by simp)
  exact ⟨es, hok, hN, hc, hlbl "Node" rfl (by decide), hsplit⟩

/-- C8 counterexample: the claim asserts one AddLabel operation per node
for every supplied label value including the empty string, but the
source's `if label:` skips the AddLabel loop for the supplied label `""`
on a two-node graph. -/
theorem c8_counterexample :
    generate_data (⟨false, [(3, []), (4, [])], []⟩ : Graph Nat)
        (some "R") (some "") none = .ok [Entity.node 0 [], Entity.node 1 []] ∧
    (some "" : Option String) ≠ none ∧
    ([Entity.node 0 [], Entity.node 1 []] : List Entity).countP Entity.isLabel = 0 :=
  ⟨rfl, by simp, rfl⟩

/-- C8 (amended: AddLabel operations are emitted exactly for supplied
NON-EMPTY labels, one per node in temp-id order; they are omitted when no
label is supplied or the supplied label is the empty string). -/
theorem c8_label_ops {ν : Type} [DecidableEq ν] (g : Graph ν)
    (ern lbl erk : Option String) (hwf : g.WF)
    (hargs : ¬(ern = none ∧ erk = none))
    (hres : ∀ e ∈ g.edges, (resolve_ename ern erk e.2.2).isOk = true) :
    ∃ es, generate_data g ern lbl erk = .ok es ∧
      (∀ l : String, lbl = some l → l ≠ "" →
        es.filter Entity.isLabel =
          (List.range g.nodes.length).map fun i => Entity.label i l) ∧
      ((lbl = none ∨ lbl = some "") → es.filter Entity.isLabel = []) := by
  obtain ⟨es, hok, _, hL, _, _⟩ := generate_data_parts g ern lbl erk hwf hargs hres
  refine ⟨es, hok, ?_, ?_⟩
  · intro l hl hne
    subst hl
    rw [hL]
    simp [label_block, hne]
  · rintro (rfl | rfl) <;> rw [hL] <;> simp [label_block]

/-- C8 witness: a two-node digraph with label `Node`, and the same graph
with no label. -/
theorem c8_witness :
    ∃ es, generate_data (⟨true, [(5, []), (6, [])], []⟩ : Graph Nat)
        (some "R") (some "Node") none = .ok es ∧
      es.filter Entity.isLabel = [Entity.label 0 "Node", Entity.label 1 "Node"] := by
  obtain ⟨es, hok, hlbl, _⟩ := c8_label_ops
    (⟨true, [(5, []), (6, [])], []⟩ : Graph Nat) (some "R") (some "Node") none
    (by decide) (by simp) (by simp)
  exact ⟨es, hok, hlbl "Node" rfl (by decide)⟩

/-- C10: on an undirected graph, the two CreateRelationship operations
emitted for a self-loop edge `(u, u)` are completely identical — the
mirrored operation coincides with the forward one — and they sit next to
each other in the relationship block. -/
theorem c10_self_loop_duplicates {ν : Type} [DecidableEq ν] (g : Graph ν)
    (ern lbl erk : Option String) (u : ν) (p : Props)
    (l1 l2 : List (ν × ν × Props)) (hwf : g.WF) (hdir : g.directed = false)
    (hsplit : g.edges = l1 ++ (u, u, p) :: l2)
    (hargs : ¬(ern = none ∧ erk = none))
    (hres : ∀ e ∈ g.edges, (resolve_ename ern erk e.2.2).isOk = true) :
    ∃ es op, generate_data g ern lbl erk = .ok es ∧
      es.filter Entity.isRel =
        l1.bind (emit_edge (node_dict g) ern erk false) ++
        ([op, op] ++ l2.bind (emit_edge (node_dict g) ern erk false)) ∧
      op = Entity.rel (node_index g u) (node_index g u) (rel_typeD ern erk p) p := by
  obtain ⟨es, hok, _, _, hR, _⟩ := generate_data_parts g ern lbl erk hwf hargs hres
  refine ⟨es, _, hok, ?_, rfl⟩
  rw [hR, hdir, hsplit]
  exact List.flatMap_append l1 ((u, u, p) :: l2) (emit_edge (node_dict g) ern erk false)

/-- C10 witness: a one-node undirected graph with a self-loop yields two
identical CreateRelationship operations. -/
theorem c10_witness :
    ∃ es op, generate_data (⟨false, [(7, [])], [(7, 7, [])]⟩ : Graph Nat)
        (some "SELF") none none = .ok es ∧
      es.filter Entity.isRel = [op, op] ∧
      op = Entity.rel 0 0 (Jsonv.str "SELF") [] := by
  obtain ⟨es, op, hok, hrel, hop⟩ := c10_self_loop_duplicates
    (⟨false, [(7, [])], [(7, 7, [])]⟩ : Graph Nat) (some "SELF") none none
    7 [] [] [] (by decide) rfl rfl (by simp)
    (by intro e he; simp only [List.mem_singleton] at he; subst he; rfl)
  exact ⟨es, op, hok, hrel, hop⟩

/-- C5: `check_exception` returns success on status 200; on any other
status it raises the ServerError carrying the parsed body's `errors`
field when the lowercased content type equals the JSON content type, and
the generic "Unknown server error." exception with the raw body attached
when it does not. -/
theorem c5_check_exception (r : Response) (kvs : List (String × Jsonv))
    (errs : Jsonv) :
    (r.status_code = 200 → check_exception r = .ok ()) ∧
    (r.status_code ≠ 200 →
      py_lower (r.content_type.getD "") = JSON_CONTENT_TYPE →
      r.json = some (Jsonv.obj kvs) → dget kvs "errors" = some errs →
      check_exception r = .error (PyErr.serverError errs)) ∧
    (r.status_code ≠ 200 →
      py_lower (r.content_type.getD "") ≠ JSON_CONTENT_TYPE →
      check_exception r =
        .error (PyErr.unknownServerError "Unknown server error." r.content)) := by
  refine ⟨?_, ?_, ?_⟩
  · intro h200
    simp [check_exception, h200]
  · intro h200 hct hjson herrs
    simp [check_exception, h200, hct, hjson, jget, herrs]
  · intro h200 hct
    simp [check_exception, h200, hct]

/-- C5 witness: a 200 response, a 500 JSON response with an `errors`
field, and a 500 HTML response. -/
theorem c5_witness :
    check_exception ⟨200, none, none, ""⟩ = .ok () ∧
    check_exception ⟨500, some "application/json; charset=utf-8",
        some (Jsonv.obj [("errors", Jsonv.arr [Jsonv.str "boom"])]), "body"⟩ =
      .error (PyErr.serverError (Jsonv.arr [Jsonv.str "boom"])) ∧
    check_exception ⟨500, some "text/html", none, "raw page"⟩ =
      .error (PyErr.unknownServerError "Unknown server error." "raw page") := by
  refine ⟨?_, ?_, ?_⟩
  · exact (c5_check_exception ⟨200, none, none, ""⟩ [] Jsonv.null).1 rfl
  · exact (c5_check_exception
      ⟨500, some "application/json; charset=utf-8",
        some (Jsonv.obj [("errors", Jsonv.arr [Jsonv.str "boom"])]), "body"⟩
      [("errors", Jsonv.arr [Jsonv.str "boom"])] (Jsonv.arr [Jsonv.str "boom"])).2.1
      (by decide) (by decide) rfl rfl
  · exact (c5_check_exception ⟨500, some "text/html", none, "raw page"⟩
      [] Jsonv.null).2.2 (by decide) (by decide)

/-- C9: `check_exception` takes the JSON branch only when the lowercased
content-type header is exactly the string
"application/json; charset=utf-8"; every non-200 response with any other
content type — e.g. plain "application/json" — gets the generic
"Unknown server error." exception with the raw body attached, and a
non-200 response whose content type does match never gets the generic
exception. -/
theorem c9_exact_content_type_match :
    JSON_CONTENT_TYPE = "application/json; charset=utf-8" ∧
    (∀ r : Response, r.status_code ≠ 200 →
      py_lower (r.content_type.getD "") ≠ JSON_CONTENT_TYPE →
      check_exception r =
        .error (PyErr.unknownServerError "Unknown server error." r.content)) ∧
    (∀ r : Response, r.status_code ≠ 200 →
      py_lower (r.content_type.getD "") = JSON_CONTENT_TYPE →
      ∀ msg raw, check_exception r ≠ .error (PyErr.unknownServerError msg raw)) ∧
    check_exception ⟨500, some "application/json",
        some (Jsonv.obj [("errors", Jsonv.arr [])]), "raw body"⟩ =
      .error (PyErr.unknownServerError "Unknown server error." "raw body") := by
  refine ⟨rfl, ?_, ?_, rfl⟩
  · intro r h200 hct
    simp [check_exception, h200, hct]
  · intro r h200 hct msg raw
    cases hjson : r.json with
    | none => simp [check_exception, h200, hct, hjson]
    | some j =>
      cases hget : jget j "errors" with
      | none => simp [check_exception, h200, hct, hjson, hget]
      | some errs => simp [check_exception, h200, hct, hjson, hget]

/-- C9 witness: a 404 response with content type "application/json"
(without the charset parameter) gets the generic exception. -/
theorem c9_witness :
    check_exception ⟨404, some "application/json",
        some (Jsonv.obj [("errors", Jsonv.str "e")]), "oops"⟩ =
      .error (PyErr.unknownServerError "Unknown server error." "oops") :=
  c9_exact_content_type_match.2.1
    ⟨404, some "application/json", some (Jsonv.obj [("errors", Jsonv.str "e")]), "oops"⟩
    (by decide) (by decide)

lemma dget_eq_none {α β : Type} [DecidableEq α] (d : List (α × β)) (k : α)
    (h : k ∉ d.map Prod.fst) : dget d k = none := by
  cases hd : dget d k with
  | none => rfl
  | some v =>
    exact absurd ((dget_isSome d k).1 (by simp [hd])) h

lemma add_node_records_eq :
    ∀ (recs : List NodeRec) (g : DiGraph),
      (∀ n ∈ recs, (python_int (rpartition_last n.self)).isSome = true) →
      ((recs.map fun n => (python_int (rpartition_last n.self)).getD 0).Nodup) →
      (∀ n ∈ recs,
        (python_int (rpartition_last n.self)).getD 0 ∉ g.nodes.map Prod.fst) →
      add_node_records g recs = .ok
        ⟨g.nodes ++ recs.map (fun n =>
           ((python_int (rpartition_last n.self)).getD 0, n.data)),
         g.edges⟩
  | [], g, _, _, _ => by simp [add_node_records]
  | n :: rest, g, hp, hnd, hfresh => by
    obtain ⟨id, hid⟩ := Option.isSome_iff_exists.1 (hp n (by simp))
    have hgd : (python_int (rpartition_last n.self)).getD 0 = id := by
      rw [hid]; rfl
    have hnotin : id ∉ g.nodes.map Prod.fst := hgd ▸ hfresh n (by simp)
    have haddn : g.add_node id n.data = ⟨g.nodes ++ [(id, n.data)], g.edges⟩ := by
      simp [DiGraph.add_node, dget_eq_none _ _ hnotin]
    simp only [List.map_cons, hgd, List.nodup_cons] at hnd
    have hrest := add_node_records_eq rest ⟨g.nodes ++ [(id, n.data)], g.edges⟩
      (fun m hm => hp m (by simp [hm])) hnd.2
      (by
        intro m hm
        simp only [List.map_append, List.mem_append, not_or, List.map_cons,
          List.map_nil, List.mem_singleton]
        refine ⟨hfresh m (by simp [hm]), fun hc => hnd.1 ?_⟩
        rw [← hc]
        exact List.mem_map_of_mem _ hm)
    simp only [add_node_records, hid, haddn, hrest, List.map_cons, hgd,
      Option.getD_some, List.append_assoc, List.cons_append, List.nil_append]

lemma add_edge_records_eq :
    ∀ (recs : List EdgeRec) (g : DiGraph),
      (∀ e ∈ recs, e.from_node_id ∈ g.nodes.map Prod.fst ∧
        e.to_node_id ∈ g.nodes.map Prod.fst) →
      ((recs.map fun e => (e.from_node_id, e.to_node_id)).Nodup) →
      (∀ e ∈ recs, (e.from_node_id, e.to_node_id) ∉ g.edges.map Prod.fst) →
      add_edge_records g recs =
        ⟨g.nodes, g.edges ++ recs.map (fun e =>
          ((e.from_node_id, e.to_node_id),
           dset e.relationship.data "neo_rel_name" e.relationship.type))⟩
  | [], g, _, _, _ => by simp [add_edge_records]
  | e :: rest, g, hin, hnd, hfresh => by
    have hu : (dget g.nodes e.from_node_id).isSome = true :=
      (dget_isSome _ _).2 (hin e (by simp)).1
    have hv : (dget g.nodes e.to_node_id).isSome = true :=
      (dget_isSome _ _).2 (hin e (by simp)).2
    have hedget : dget g.edges (e.from_node_id, e.to_node_id) = none :=
      dget_eq_none _ _ (hfresh e (by simp))
    have hadde : g.add_edge e.from_node_id e.to_node_id
        (dset e.relationship.data "neo_rel_name" e.relationship.type) =
        ⟨g.nodes, g.edges ++ [((e.from_node_id, e.to_node_id),
          dset e.relationship.data "neo_rel_name" e.relationship.type)]⟩ := by
      simp [DiGraph.add_edge, hu, hv, hedget]
    simp only [List.map_cons, List.nodup_cons] at hnd
    have hrest := add_edge_records_eq rest
      ⟨g.nodes, g.edges ++ [((e.from_node_id, e.to_node_id),
        dset e.relationship.data "neo_rel_name" e.relationship.type)]⟩
      (fun m hm => hin m (by simp [hm])) hnd.2
      (by
        intro m hm
        simp only [List.map_append, List.mem_append, not_or, List.map_cons,
          List.map_nil, List.mem_singleton]
        refine ⟨hfresh m (by simp [hm]), fun hc => hnd.1 ?_⟩
        rw [← hc]
        exact List.mem_map_of_mem _ hm)
    simp only [add_edge_records, hadde, hrest, List.map_cons,
      List.append_assoc, List.cons_append, List.nil_append]

/-- C6: on well-formed records — every node record's trailing URL segment
parses as an integer, the ids are distinct, and every edge record's
endpoints are among them — the reconstruction step builds the directed
graph whose nodes are exactly the parsed ids with the records' property
mappings, and whose edges run from-id → to-id carrying the relationship's
`data` mapping with the synthesized key `neo_rel_name` set to the
relationship's `type`. -/
theorem c6_reconstruction (node_data : List NodeRec) (edge_data : List EdgeRec)
    (hp : ∀ n ∈ node_data, (python_int (rpartition_last n.self)).isSome = true)
    (hnd : (node_data.map fun n => (python_int (rpartition_last n.self)).getD 0).Nodup)
    (hin : ∀ e ∈ edge_data,
      e.from_node_id ∈ node_data.map (fun n => (python_int (rpartition_last n.self)).getD 0) ∧
      e.to_node_id ∈ node_data.map (fun n => (python_int (rpartition_last n.self)).getD 0))
    (hend : (edge_data.map fun e => (e.from_node_id, e.to_node_id)).Nodup) :
    build_graph node_data edge_data = .ok
      ⟨node_data.map (fun n => ((python_int (rpartition_last n.self)).getD 0, n.data)),
       edge_data.map (fun e => ((e.from_node_id, e.to_node_id),
         dset e.relationship.data "neo_rel_name" e.relationship.type))⟩ := by
  have h1 := add_node_records_eq node_data ⟨[], []⟩ hp hnd (by simp)
  have hkeys : (node_data.map (fun n =>
      ((python_int (rpartition_last n.self)).getD 0, n.data))).map Prod.fst =
      node_data.map (fun n => (python_int (rpartition_last n.self)).getD 0) := by
    rw [List.map_map]
    rfl
  have h2 := add_edge_records_eq edge_data
    ⟨node_data.map (fun n =>
       ((python_int (rpartition_last n.self)).getD 0, n.data)), []⟩
    (by
      intro e he
      simp only [hkeys]
      exact hin e he)
    hend (by simp)
  simp only [build_graph, Bind.bind, Except.bind, h1, h2, pure, Except.pure,
    List.nil_append]

/-- C6 witness — the spec's example: self-URLs ending in `/node/1` and
`/node/2` and one edge `[1, {type: LINKS_TO, data: {date: 2011-01-01}}, 2]`
yield exactly the two nodes 1 and 2 and the single edge 1→2 whose
properties are `date = "2011-01-01"` and `neo_rel_name = "LINKS_TO"`. -/
theorem c6_witness :
    build_graph
      [⟨"http://localhost:7474/db/data/node/1", []⟩,
       ⟨"http://localhost:7474/db/data/node/2", []⟩]
      [⟨1, ⟨Jsonv.str "LINKS_TO", [("date", Jsonv.str "2011-01-01")]⟩, 2⟩] =
    .ok ⟨[(1, []), (2, [])],
         [((1, 2), [("date", Jsonv.str "2011-01-01"),
                    ("neo_rel_name", Jsonv.str "LINKS_TO")])]⟩ :=
  c6_reconstruction
    [⟨"http://localhost:7474/db/data/node/1", []⟩,
     ⟨"http://localhost:7474/db/data/node/2", []⟩]
    [⟨1, ⟨Jsonv.str "LINKS_TO", [("date", Jsonv.str "2011-01-01")]⟩, 2⟩]
    (by decide) (by decide) (by decide) (by decide)

lemma add_node_records_err :
    ∀ (recs : List NodeRec) (g : DiGraph),
      (∃ n ∈ recs, python_int (rpartition_last n.self) = none) →
      ∃ msg, add_node_records g recs = .error (PyErr.valueError msg)
  | [], _, h => by simp at h
  | n :: rest, g, h => by
    cases hp : python_int (rpartition_last n.self) with
    | none =>
      exact ⟨"invalid literal for int() with base 10: " ++ rpartition_last n.self,
        by simp [add_node_records, hp]⟩
    | some id =>
      obtain ⟨m, hm, hmp⟩ := h
      have hmrest : m ∈ rest := by
        rcases List.mem_cons.1 hm with rfl | hr
        · rw [hp] at hmp
          exact absurd hmp (by simp)
        · exact hr
      obtain ⟨msg, hmsg⟩ :=
        add_node_records_err rest (g.add_node id n.data) ⟨m, hmrest, hmp⟩
      exact ⟨msg, by simp [add_node_records, hp, hmsg]⟩

/-- C7: whenever some node record's self-URL has a trailing path segment
that does not parse as an integer, the reconstruction step fails with the
MalformedResponseError (`ValueError` from `int()`) instead of building a
graph. -/
theorem c7_bad_node_id (node_data : List NodeRec) (edge_data : List EdgeRec)
    (h : ∃ n ∈ node_data, python_int (rpartition_last n.self) = none) :
    ∃ msg, build_graph node_data edge_data = .error (PyErr.valueError msg) := by
  obtain ⟨msg, hmsg⟩ := add_node_records_err node_data ⟨[], []⟩ h
  exact ⟨msg, by simp [build_graph, hmsg, Bind.bind, Except.bind]⟩

/-- C7 witness: a node record whose self-URL ends in `/node/abc`. -/
theorem c7_witness :
    ∃ msg, build_graph [⟨"http://localhost:7474/db/data/node/abc", []⟩] [] =
      .error (PyErr.valueError msg) :=
  c7_bad_node_id [⟨"http://localhost:7474/db/data/node/abc", []⟩] []
    ⟨⟨"http://localhost:7474/db/data/node/abc", []⟩, by simp, by decide⟩
